import Mathlib

/-!
Verification development for the YouTube-processor repository
(two Python source files: scripts/youtube_processor.py and
src/src/youtube-processor.py).

The Python code is shallowly embedded: pure string/regex processing is
translated into executable Lean functions on lists of characters, the
network layer is an explicit input (a response value or a transport
exception message), and Python exceptions become Option/Except values.

Regex embedding notes. The source uses only a handful of fixed regular
expressions; each one is embedded as a dedicated scanning function that
implements the semantics of Python re.search for that pattern class:
leftmost match position wins, alternatives are tried in order at each
position, quantifiers are greedy with backtracking. ASCII digits model
the \d class (Python would also accept rare non-ASCII unicode digits;
no claim exercises those).
-/

/-- Character class [^&\n?#] of the video-id capture groups:
stop characters ending an id. -/
def stopChar (c : Char) : Bool :=
  c == '&' || c == '\n' || c == '?' || c == '#'

/-- Literal-prefix test (the way re matches a literal at a position). -/
def leadsWith : List Char → List Char → Bool
  | [], _ => true
  | _ :: _, [] => false
  | a :: as, b :: bs => a == b && leadsWith as bs

/-- Whether the literal pat occurs as a contiguous substring. -/
def occursIn (pat : List Char) : List Char → Bool
  | [] => leadsWith pat []
  | c :: cs => leadsWith pat (c :: cs) || occursIn pat cs

/-- Greedy capture ([^&\n?#]+) at a position: the maximal run of
non-stop characters, required to be non-empty. -/
def captureAt (s : List Char) : Option (List Char) :=
  let cap := s.takeWhile (fun c => !stopChar c)
  if cap.isEmpty then none else some cap

/-- The id the spec describes: the substring between the marker and the
first of ampersand, newline, question mark, hash sign, or the end. -/
def vidOf (rest : List Char) : List Char :=
  rest.takeWhile (fun c => !stopChar c)

/-- One alternation attempt at a fixed position: alternatives tried in
order; an alternative whose literal matches but whose capture is empty
backtracks to the next alternative (re semantics). -/
def tryAlts (alts : List (List Char)) (s : List Char) : Option (List Char) :=
  match alts with
  | [] => none
  | a :: more =>
    if leadsWith a s then
      match captureAt (s.drop a.length) with
      | some cap => some cap
      | none => tryAlts more s
    else tryAlts more s

/-- re.search for a pattern (?:alt1|alt2|...)([^&\n?#]+): scan left to
right, first position with a successful attempt wins. -/
def searchAlts (alts : List (List Char)) : List Char → Option (List Char)
  | [] => none
  | c :: cs =>
    match tryAlts alts (c :: cs) with
    | some cap => some cap
    | none => searchAlts alts cs

/-- The three alternatives of the first pattern, shared verbatim by both
source files:
(?:youtube\.com\/watch\?v=|youtu\.be\/|youtube\.com\/embed\/). -/
def alts1 : List (List Char) :=
  [("youtube.com/watch?v=").data, ("youtu.be/").data, ("youtube.com/embed/").data]

namespace Scripts

/-- Literal head of the fallback pattern of scripts/youtube_processor.py:
youtube\.com\/watch\? -/
def p2marker : List Char := ("youtube.com/watch?").data

/-- One attempt of .*v=([^&\n?#]+) at split point j (the length taken by
the dot-star): the prefix may not contain a newline, then the literal
v=, then a non-empty capture. -/
def vEqAt (s : List Char) (j : Nat) : Option (List Char) :=
  if (s.take j).all (fun c => !(c == '\n')) && leadsWith (['v', '=']) (s.drop j) then
    captureAt (s.drop (j + 2))
  else none

/-- Greedy .*v=([^&\n?#]+): the largest split point that matches wins
(backtracking from the longest dot-star). -/
def matchDotStarVEq (s : List Char) : Option (List Char) :=
  ((List.range (s.length + 1)).reverse).findSome? (vEqAt s)

/-- re.search for the fallback pattern
youtube\.com\/watch\?.*v=([^&\n?#]+). -/
def searchP2 : List Char → Option (List Char)
  | [] => none
  | c :: cs =>
    match (if leadsWith p2marker (c :: cs) then
             matchDotStarVEq ((c :: cs).drop p2marker.length)
           else none) with
    | some cap => some cap
    | none => searchP2 cs

/-- extract_video_id of scripts/youtube_processor.py: the first pattern,
then the watch?.*v= fallback. -/
def extract_video_id (url : String) : Option String :=
  match searchAlts alts1 url.data with
  | some cap => some (String.mk cap)
  | none =>
    match searchP2 url.data with
    | some cap => some (String.mk cap)
    | none => none

end Scripts

namespace YouTubeProcessor

/-- The single alternative of the second pattern of
src/src/youtube-processor.py: youtube\.com\/v\/([^&\n?#]+). -/
def vAlt : List (List Char) := [("youtube.com/v/").data]

/-- YouTubeProcessor.extract_video_id of src/src/youtube-processor.py:
the shared first pattern, then the youtube.com/v/ pattern. -/
def extract_video_id (url : String) : Option String :=
  match searchAlts alts1 url.data with
  | some cap => some (String.mk cap)
  | none =>
    match searchAlts vAlt url.data with
    | some cap => some (String.mk cap)
    | none => none

end YouTubeProcessor

/-! ## Python string-library helpers used by the source -/

/-- The whitespace set of Python str.strip() restricted to ASCII
(space, tab, newline, carriage return, vertical tab, form feed). -/
def isPySpace (c : Char) : Bool :=
  c == ' ' || c == '\t' || c == '\n' || c == '\r' || c == '\x0b' || c == '\x0c'

/-- Python str.strip(). -/
def pyStrip (s : List Char) : List Char :=
  ((s.dropWhile isPySpace).reverse.dropWhile isPySpace).reverse

/-- Fuel-driven worker for replaceAll; out of fuel it is the identity
(the wrapper supplies enough fuel for that never to happen). -/
def replaceAllFuel (pat rep : List Char) : Nat → List Char → List Char
  | 0, s => s
  | _ + 1, [] => []
  | fuel + 1, c :: cs =>
    if leadsWith pat (c :: cs) then
      rep ++ replaceAllFuel pat rep fuel (cs.drop (pat.length - 1))
    else
      c :: replaceAllFuel pat rep fuel cs

/-- re.sub with a literal pattern: leftmost, non-overlapping replacement,
continuing after each replacement (only ever called with non-empty pat). -/
def replaceAll (pat rep : List Char) (s : List Char) : List Char :=
  replaceAllFuel pat rep (s.length + 1) s

/-- Value of a run of ASCII digits (int() on a \d+ capture). -/
def digitsVal (l : List Char) : Nat :=
  l.foldl (fun n c => 10 * n + (c.toNat - 48)) 0

/-- Python float() on a string, modelled with exact rational values:
optional surrounding whitespace, optional sign, decimal digits with an
optional fractional part and an optional exponent. Values are exact
rationals rather than IEEE doubles (immaterial here: every value the
claims touch is exactly representable), and the rare inputs Python also
accepts (inf/nan spellings, digit-group underscores, non-ASCII digits)
are rejected. -/
def pyFloat (s : String) : Option Rat :=
  let l := ((s.data.dropWhile isPySpace).reverse.dropWhile isPySpace).reverse
  let signAndRest : Int × List Char :=
    match l with
    | '+' :: t => (1, t)
    | '-' :: t => (-1, t)
    | _ => (1, l)
  let sgn := signAndRest.1
  let l0 := signAndRest.2
  let intPart := l0.takeWhile Char.isDigit
  let l1 := l0.dropWhile Char.isDigit
  let fracAndRest : List Char × List Char :=
    match l1 with
    | '.' :: t => (t.takeWhile Char.isDigit, t.dropWhile Char.isDigit)
    | _ => ([], l1)
  let fracPart := fracAndRest.1
  let l2 := fracAndRest.2
  if intPart.isEmpty && fracPart.isEmpty then none
  else
    let mantNum : Int := sgn * (digitsVal (intPart ++ fracPart) : Int)
    let mantDen : Nat := 10 ^ fracPart.length
    match l2 with
    | [] => some (mkRat mantNum mantDen)
    | e :: t =>
      if e == 'e' || e == 'E' then
        let esignAndRest : Bool × List Char :=
          match t with
          | '+' :: u => (false, u)
          | '-' :: u => (true, u)
          | _ => (false, t)
        let eneg := esignAndRest.1
        let edigits := esignAndRest.2.takeWhile Char.isDigit
        if edigits.isEmpty || !(esignAndRest.2.dropWhile Char.isDigit).isEmpty then none
        else if eneg then some (mkRat mantNum (mantDen * 10 ^ digitsVal edigits))
        else some (mkRat (mantNum * (10 ^ digitsVal edigits : Nat)) mantDen)
      else none

/-! ## Python str.encode() + bytes.decode("unicode_escape")

The source runs title.encode().decode("unicode_escape"). The first step
is UTF-8 encoding; the second interprets backslash escapes in the byte
string and maps all other bytes through latin-1. Decoding can raise
(malformed \x/\u/\U escapes, trailing backslash); that surfaces as none.
Escapes denoting lone surrogates (legal in a Python str, impossible in a
Lean Char) and \N named escapes are also mapped to none; no claim
exercises them. -/

/-- UTF-8 encoding of one character, as byte values. -/
def utf8EncodeChar (c : Char) : List Nat :=
  let n := c.toNat
  if n < 128 then [n]
  else if n < 2048 then [192 + n / 64, 128 + n % 64]
  else if n < 65536 then [224 + n / 4096, 128 + (n / 64) % 64, 128 + n % 64]
  else [240 + n / 262144, 128 + (n / 4096) % 64, 128 + (n / 64) % 64, 128 + n % 64]

/-- Python str.encode(): UTF-8 bytes of a string. -/
def utf8Encode (s : String) : List Nat :=
  s.data.flatMap utf8EncodeChar

/-- Hexadecimal digit value. -/
def hexVal (c : Char) : Option Nat :=
  if '0' ≤ c && c ≤ '9' then some (c.toNat - 48)
  else if 'a' ≤ c && c ≤ 'f' then some (c.toNat - 87)
  else if 'A' ≤ c && c ≤ 'F' then some (c.toNat - 55)
  else none

/-- Octal digit test. -/
def isOctal (c : Char) : Bool := '0' ≤ c && c ≤ '7'

/-- A character from a code point, failing on values that are not
Unicode scalar values (surrogates). -/
def mkChar (n : Nat) : Option Char :=
  if n.isValidChar then some (Char.ofNat n) else none

/-- Read exactly k hexadecimal digits. -/
def readHex : Nat → List Nat → Option (Nat × List Nat)
  | 0, bs => some (0, bs)
  | k + 1, [] => (fun _ => none) k
  | k + 1, b :: bs =>
    match hexVal (Char.ofNat b) with
    | none => none
    | some v =>
      match readHex k bs with
      | none => none
      | some (rest, tail) => some (v * 16 ^ k + rest, tail)

/-- bytes.decode("unicode_escape"), byte list to characters. -/
def pyUnicodeEscapeAux : Nat → List Nat → Option (List Char)
  | 0, _ => none
  | _, [] => some []
  | fuel + 1, b :: bs =>
    if b ≠ 92 then
      match mkChar b with
      | none => none
      | some c =>
        match pyUnicodeEscapeAux fuel bs with
        | none => none
        | some cs => some (c :: cs)
    else
      match bs with
      | [] => none
      | e :: tail =>
        let simpleEscape : Option (Option Char) :=
          match Char.ofNat e with
          | '\n' => some none
          | '\\' => some (some '\\')
          | '\'' => some (some '\'')
          | '"' => some (some '"')
          | 'a' => some (some '\x07')
          | 'b' => some (some '\x08')
          | 'f' => some (some '\x0c')
          | 'n' => some (some '\n')
          | 'r' => some (some '\r')
          | 't' => some (some '\t')
          | 'v' => some (some '\x0b')
          | _ => none
        match simpleEscape with
        | some oc =>
          match pyUnicodeEscapeAux fuel tail with
          | none => none
          | some cs => some (match oc with | none => cs | some c => c :: cs)
        | none =>
          if isOctal (Char.ofNat e) then
            let d1 := e - 48
            let octAndRest : Nat × List Nat :=
              match tail with
              | o2 :: t2 =>
                if isOctal (Char.ofNat o2) then
                  match t2 with
                  | o3 :: t3 =>
                    if isOctal (Char.ofNat o3) then
                      (d1 * 64 + (o2 - 48) * 8 + (o3 - 48), t3)
                    else (d1 * 8 + (o2 - 48), t2)
                  | [] => (d1 * 8 + (o2 - 48), t2)
                else (d1, tail)
              | [] => (d1, tail)
            match mkChar octAndRest.1 with
            | none => none
            | some c =>
              match pyUnicodeEscapeAux fuel octAndRest.2 with
              | none => none
              | some cs => some (c :: cs)
          else if Char.ofNat e == 'x' then
            match readHex 2 tail with
            | none => none
            | some (v, t2) =>
              match mkChar v with
              | none => none
              | some c =>
                match pyUnicodeEscapeAux fuel t2 with
                | none => none
                | some cs => some (c :: cs)
          else if Char.ofNat e == 'u' then
            match readHex 4 tail with
            | none => none
            | some (v, t2) =>
              match mkChar v with
              | none => none
              | some c =>
                match pyUnicodeEscapeAux fuel t2 with
                | none => none
                | some cs => some (c :: cs)
          else if Char.ofNat e == 'U' then
            match readHex 8 tail with
            | none => none
            | some (v, t2) =>
              match mkChar v with
              | none => none
              | some c =>
                match pyUnicodeEscapeAux fuel t2 with
                | none => none
                | some cs => some (c :: cs)
          else if Char.ofNat e == 'N' then none
          else
            match mkChar e with
            | none => none
            | some c =>
              match pyUnicodeEscapeAux fuel tail with
              | none => none
              | some cs => some ('\\' :: c :: cs)

/-- bytes.decode("unicode_escape") on a byte list. -/
def pyUnicodeEscape (bytes : List Nat) : Option String :=
  match pyUnicodeEscapeAux (bytes.length + 1) bytes with
  | none => none
  | some cs => some (String.mk cs)



/-! ## xml.etree.ElementTree model

The source parses HTTP bodies with ET.fromstring. The parser below
implements the XML subset those bodies use: nested elements with
single- or double-quoted attributes, character data with the five
predefined XML entities and numeric character references, self-closing
tags and an optional leading XML declaration. Exactly as in expat,
entity and character references are decoded during parsing and a
reference to anything else (for instance an HTML entity such as
&nbsp;) is a parse error. Inputs outside this subset (comments, CDATA,
DOCTYPE, processing instructions inside the document) map to parse
failure; no claim exercises them. Inter-element tail text is consumed
and dropped: ET stores it in .tail, which the source never reads. -/

/-- An ElementTree element: tag, attributes in document order, text
before the first child (None when empty, as in ET), children. -/
inductive XmlElem where
  | mk (tag : String) (attrs : List (String × String)) (text : Option String)
       (children : List XmlElem)

def XmlElem.tag : XmlElem → String
  | mk t _ _ _ => t

def XmlElem.attrs : XmlElem → List (String × String)
  | mk _ a _ _ => a

def XmlElem.text : XmlElem → Option String
  | mk _ _ x _ => x

def XmlElem.children : XmlElem → List XmlElem
  | mk _ _ _ ch => ch

/-- Element.get(key, default) without the default: first (only,
duplicates being a parse error) binding of the key. -/
def XmlElem.attrGet (e : XmlElem) (k : String) : Option String :=
  (e.attrs.find? (fun p => p.1 == k)).map (fun p => p.2)

/-- XML whitespace. -/
def isXmlWs (c : Char) : Bool :=
  c == ' ' || c == '\t' || c == '\n' || c == '\r'

/-- Characters allowed in the names appearing in these documents. -/
def isNameChar (c : Char) : Bool :=
  c.isAlphanum || c == '_' || c == '-' || c == ':' || c == '.'

/-- Decode one entity or character reference; the input starts just
after the ampersand. -/
def xmlEntityAt (s : List Char) : Option (Char × List Char) :=
  if leadsWith ("amp;").data s then some ('&', s.drop 4)
  else if leadsWith ("lt;").data s then some ('<', s.drop 3)
  else if leadsWith ("gt;").data s then some ('>', s.drop 3)
  else if leadsWith ("quot;").data s then some ('"', s.drop 5)
  else if leadsWith ("apos;").data s then some ('\'', s.drop 5)
  else
    match s with
    | '#' :: 'x' :: t =>
      let ds := t.takeWhile (fun c => (hexVal c).isSome)
      if ds.isEmpty then none
      else
        match t.dropWhile (fun c => (hexVal c).isSome) with
        | ';' :: rest =>
          match mkChar (ds.foldl (fun n c => 16 * n + ((hexVal c).getD 0)) 0) with
          | none => none
          | some c => some (c, rest)
        | _ => none
    | '#' :: t =>
      let ds := t.takeWhile Char.isDigit
      if ds.isEmpty then none
      else
        match t.dropWhile Char.isDigit with
        | ';' :: rest =>
          match mkChar (digitsVal ds) with
          | none => none
          | some c => some (c, rest)
        | _ => none
    | _ => none

/-- Character data until the next tag, with references decoded. -/
def xmlText : Nat → List Char → Option (List Char × List Char)
  | 0, _ => none
  | _ + 1, [] => some ([], [])
  | fuel + 1, c :: t =>
    if c == '<' then some ([], c :: t)
    else if c == '&' then
      match xmlEntityAt t with
      | none => none
      | some (d, rest) => (xmlText fuel rest).map (fun p => (d :: p.1, p.2))
    else (xmlText fuel t).map (fun p => (c :: p.1, p.2))

/-- A quoted attribute value: references decoded, literal whitespace
normalized to spaces, a raw smaller-than sign being an error. -/
def xmlAttrValue : Nat → Char → List Char → Option (List Char × List Char)
  | 0, _, _ => none
  | _ + 1, _, [] => none
  | fuel + 1, q, c :: t =>
    if c == q then some ([], t)
    else if c == '<' then none
    else if c == '&' then
      match xmlEntityAt t with
      | none => none
      | some (d, rest) => (xmlAttrValue fuel q rest).map (fun p => (d :: p.1, p.2))
    else
      (xmlAttrValue fuel q t).map
        (fun p => ((if isXmlWs c then ' ' else c) :: p.1, p.2))

/-- The attribute list of a start tag: whitespace-separated
name="value" pairs, duplicates rejected. -/
def xmlAttrs : Nat → List Char → List (String × String) →
    Option (List (String × String) × List Char)
  | 0, _, _ => none
  | fuel + 1, s, acc =>
    let ws := s.takeWhile isXmlWs
    let s1 := s.dropWhile isXmlWs
    match s1 with
    | [] => some (acc, [])
    | c :: _ =>
      if isNameChar c then
        if ws.isEmpty then none
        else
          let name := s1.takeWhile isNameChar
          let s2 := (s1.dropWhile isNameChar).dropWhile isXmlWs
          match s2 with
          | '=' :: s3 =>
            match s3.dropWhile isXmlWs with
            | q :: s4 =>
              if q == '"' || q == '\'' then
                match xmlAttrValue (s4.length + 1) q s4 with
                | none => none
                | some (v, s5) =>
                  if acc.any (fun p => p.1 == String.mk name) then none
                  else xmlAttrs fuel s5 (acc ++ [(String.mk name, String.mk v)])
              else none
            | [] => none
          | _ => none
      else some (acc, s1)

mutual

/-- One element, the input starting at its opening tag. -/
def xmlElement : Nat → List Char → Option (XmlElem × List Char)
  | 0, _ => none
  | fuel + 1, s =>
    match s with
    | '<' :: s1 =>
      let name := s1.takeWhile isNameChar
      if name.isEmpty then none
      else
        let s2 := s1.dropWhile isNameChar
        match xmlAttrs (s2.length + 1) s2 [] with
        | none => none
        | some (attrs, s3) =>
          match s3 with
          | '/' :: '>' :: s4 => some (XmlElem.mk (String.mk name) attrs none [], s4)
          | '>' :: s4 =>
            match xmlText (s4.length + 1) s4 with
            | none => none
            | some (txt, s5) =>
              match xmlChildren fuel name s5 with
              | none => none
              | some (kids, s6) =>
                some (XmlElem.mk (String.mk name) attrs
                        (if txt.isEmpty then none else some (String.mk txt)) kids, s6)
          | _ => none
    | _ => none
termination_by structural fuel _ => fuel

/-- Content after the leading text of an element: children interleaved
with (dropped) tail text, up to the matching closing tag. -/
def xmlChildren : Nat → List Char → List Char → Option (List XmlElem × List Char)
  | 0, _, _ => none
  | fuel + 1, closing, s =>
    match s with
    | '<' :: '/' :: s1 =>
      let name := s1.takeWhile isNameChar
      if name == closing then
        match (s1.dropWhile isNameChar).dropWhile isXmlWs with
        | '>' :: s2 => some ([], s2)
        | _ => none
      else none
    | '<' :: _ =>
      match xmlElement fuel s with
      | none => none
      | some (kid, s2) =>
        match xmlText (s2.length + 1) s2 with
        | none => none
        | some (_, s3) =>
          match xmlChildren fuel closing s3 with
          | none => none
          | some (kids, s4) => some (kid :: kids, s4)
    | _ => none
termination_by structural fuel _ _ => fuel

end

/-- Skip past the first ?> (closing an XML declaration). -/
def dropAfterDecl : List Char → Option (List Char)
  | [] => none
  | '?' :: '>' :: t => some t
  | _ :: t => dropAfterDecl t

/-- ET.fromstring on the subset described above: optional declaration,
one root element, nothing but whitespace after it. -/
def ET_fromstring (body : String) : Option XmlElem :=
  let s0 := body.data.dropWhile isXmlWs
  let afterDecl : Option (List Char) :=
    if leadsWith ("<?").data s0 then dropAfterDecl (s0.drop 2) else some s0
  match afterDecl with
  | none => none
  | some s1 =>
    let s2 := s1.dropWhile isXmlWs
    match xmlElement (2 * s2.length + 4) s2 with
    | none => none
    | some (root, rest) =>
      if (rest.dropWhile isXmlWs).isEmpty then some root else none

mutual

/-- An element followed by all its descendants, document order. -/
def descElem : XmlElem → List XmlElem
  | XmlElem.mk t a x ch => XmlElem.mk t a x ch :: descList ch

/-- All descendants of the listed elements, document (preorder) order. -/
def descList : List XmlElem → List XmlElem
  | [] => []
  | e :: es => descElem e ++ descList es

end

/-- root.findall(".//tag"): descendants of the root (the root itself
excluded) with the given tag, in document order. -/
def findallDesc (tag : String) (root : XmlElem) : List XmlElem :=
  (descList root.children).filter (fun e => e.tag == tag)

/-- An HTTP response that completed: requests.Response status_code and
text. A call of session.get is modelled as an input of type
Except String HttpResponse: either the completed response or the
message of the transport exception the call raised. -/
structure HttpResponse where
  status : Nat
  body : String

namespace YouTubeProcessor

/-! ## YouTubeProcessor.get_video_info -/

/-- One attempt of marker([^"]+)" at a position: the literal marker,
then a non-empty maximal run of non-quote characters, then the closing
quote (re backtracking cannot lengthen a failed attempt here, so a
missing closing quote fails the position). -/
def quotedCapAt (marker : List Char) (s : List Char) : Option (List Char) :=
  if leadsWith marker s then
    let rest := s.drop marker.length
    let cap := rest.takeWhile (fun c => !(c == '"'))
    if cap.isEmpty then none
    else
      match rest.drop cap.length with
      | '"' :: _ => some cap
      | _ => none
  else none

/-- re.search for marker([^"]+)": leftmost successful position. -/
def searchQuoted (marker : List Char) : List Char → Option (List Char)
  | [] => none
  | c :: cs =>
    match quotedCapAt marker (c :: cs) with
    | some cap => some cap
    | none => searchQuoted marker cs

/-- One attempt of marker(\d+)" at a position: a shorter digit run is
still followed by a digit, never by a quote, so greedy matching with
backtracking reduces to the maximal run plus a closing-quote test. -/
def digitsCapAt (marker : List Char) (s : List Char) : Option (List Char) :=
  if leadsWith marker s then
    let rest := s.drop marker.length
    let cap := rest.takeWhile Char.isDigit
    if cap.isEmpty then none
    else
      match rest.drop cap.length with
      | '"' :: _ => some cap
      | _ => none
  else none

/-- re.search for marker(\d+)". -/
def searchDigits (marker : List Char) : List Char → Option (List Char)
  | [] => none
  | c :: cs =>
    match digitsCapAt marker (c :: cs) with
    | some cap => some cap
    | none => searchDigits marker cs

/-- Marker of the pattern "title":"([^"]+)". -/
def titleMarker : List Char := ("\"title\":\"").data

/-- Marker of the pattern "shortDescription":"([^"]+)". -/
def descMarker : List Char := ("\"shortDescription\":\"").data

/-- Marker of the pattern "lengthSeconds":"(\d+)". -/
def lenMarker : List Char := ("\"lengthSeconds\":\"").data

/-- title_match.group(1) if title_match else "Unknown Title". -/
def titleOf (html : List Char) : String :=
  match searchQuoted titleMarker html with
  | some cap => String.mk cap
  | none => "Unknown Title"

/-- desc_match.group(1) if desc_match else "No description". -/
def descriptionOf (html : List Char) : String :=
  match searchQuoted descMarker html with
  | some cap => String.mk cap
  | none => "No description"

/-- int(duration_match.group(1)) if duration_match else 0. -/
def durationOf (html : List Char) : Nat :=
  match searchDigits lenMarker html with
  | some cap => digitsVal cap
  | none => 0

/-- The f-string thumbnail URL built from the video id (no request). -/
def thumbnailOf (vid : String) : String :=
  "https://img.youtube.com/vi/" ++ vid ++ "/maxresdefault.jpg"

/-- The success dictionary of get_video_info. -/
structure VideoMetadata where
  video_id : String
  title : String
  description : String
  duration : Nat
  url : String
  thumbnail : String
deriving DecidableEq

/-- Return value of get_video_info: the metadata dictionary or an
error dictionary with its message. -/
inductive InfoResult where
  | ok (m : VideoMetadata)
  | error (msg : String)
deriving DecidableEq

/-- Whether an InfoResult is the success dictionary. -/
def InfoResult.isOk : InfoResult → Bool
  | .ok _ => true
  | .error _ => false

/-- Stand-in for str(e) of a UnicodeDecodeError: the text of library
exception messages is not reproduced by the model, and no proved claim
depends on it. -/
def unicodeErrMsg : String := "unicode escape decode error"

/-- YouTubeProcessor.get_video_info. The response status is never
inspected (the source reads response.text unconditionally); the only
exceptions inside the try block are the transport one (the net input)
and a UnicodeDecodeError from either .decode("unicode_escape") call,
evaluated title first, description second. -/
def get_video_info (url : String) (net : Except String HttpResponse) : InfoResult :=
  match extract_video_id url with
  | none => .error "Invalid YouTube URL"
  | some vid =>
    match net with
    | .error e => .error ("Failed to get video info: " ++ e)
    | .ok resp =>
      let html := resp.body.data
      match pyUnicodeEscape (utf8Encode (titleOf html)) with
      | none => .error ("Failed to get video info: " ++ unicodeErrMsg)
      | some t =>
        match pyUnicodeEscape (utf8Encode (descriptionOf html)) with
        | none => .error ("Failed to get video info: " ++ unicodeErrMsg)
        | some d =>
          .ok { video_id := vid, title := t, description := d,
                duration := durationOf html, url := url,
                thumbnail := thumbnailOf vid }

/-! ## YouTubeProcessor.get_transcript_urls -/

/-- One entry of the captions list. -/
structure CaptionTrack where
  lang_code : String
  name : String
  url : String
deriving DecidableEq

/-- YouTubeProcessor.get_transcript_urls: on a completed 200 response
with well-formed XML, the track elements; in every other case
(transport exception, non-200 status, parse error) the code falls
through to the final return [] after at most printing a diagnostic. -/
def get_transcript_urls (video_id : String) (net : Except String HttpResponse) :
    List CaptionTrack :=
  match net with
  | .error _ => []
  | .ok resp =>
    if resp.status == 200 then
      match ET_fromstring resp.body with
      | none => []
      | some root =>
        (findallDesc "track" root).map (fun tr =>
          let lang_code := (tr.attrGet "lang_code").getD "en"
          let name := (tr.attrGet "name").getD lang_code
          { lang_code := lang_code, name := name,
            url := "https://www.youtube.com/api/timedtext?lang=" ++ lang_code
                   ++ "&v=" ++ video_id })
    else []

/-! ## YouTubeProcessor.get_transcript -/

/-- One parsed transcript segment. -/
structure Segment where
  start : Rat
  duration : Rat
  text : String
deriving DecidableEq

/-- The success dictionary of get_transcript. -/
structure Transcript where
  video_id : String
  language : String
  transcript : List Segment
  full_text : String
deriving DecidableEq

/-- Return value of get_transcript: the transcript dictionary or an
error dictionary with its message. -/
inductive TranscriptResult where
  | ok (t : Transcript)
  | error (msg : String)
deriving DecidableEq

/-- float(text_elem.get(key, 0)): a missing attribute gives float(0),
a present one is parsed, a ValueError carrying CPython's message. -/
def floatOfAttr (a : Option String) : Except String Rat :=
  match a with
  | none => .ok 0
  | some v =>
    match pyFloat v with
    | some q => .ok q
    | none => .error ("could not convert string to float: '" ++ v ++ "'")

/-- The three re.sub cleanup calls, in source order. -/
def unescape3 (t : List Char) : List Char :=
  replaceAll ("&gt;").data (['>'])
    (replaceAll ("&lt;").data (['<'])
      (replaceAll ("&amp;").data (['&']) t))

/-- The per-element body of the transcript loop: float(start),
float(dur), (text or "") run through the three entity substitutions
and str.strip(). -/
def processTextElem (e : XmlElem) : Except String Segment := do
  let s ← floatOfAttr (e.attrGet "start")
  let d ← floatOfAttr (e.attrGet "dur")
  let txt := (e.text).getD ""
  pure { start := s, duration := d, text := String.mk (pyStrip (unescape3 txt.data)) }

/-- The transcript loop over the text elements, stopping at the first
ValueError. -/
def collectSegments : List XmlElem → Except String (List Segment)
  | [] => .ok []
  | e :: es => do
    let seg ← processTextElem e
    let more ← collectSegments es
    pure (seg :: more)

/-- Stand-in for str(e) of an ET.ParseError (message text not
reproduced by the model; no proved claim depends on it). -/
def xmlErrMsg : String := "xml parse error"

/-- YouTubeProcessor.get_transcript. -/
def get_transcript (url : String) (lang : String)
    (net : Except String HttpResponse) : TranscriptResult :=
  match extract_video_id url with
  | none => .error "Invalid YouTube URL"
  | some vid =>
    match net with
    | .error e => .error ("Failed to get transcript: " ++ e)
    | .ok resp =>
      if resp.status == 200 then
        match ET_fromstring resp.body with
        | none => .error ("Failed to get transcript: " ++ xmlErrMsg)
        | some root =>
          match collectSegments (findallDesc "text" root) with
          | .error e => .error ("Failed to get transcript: " ++ e)
          | .ok parts =>
            .ok { video_id := vid, language := lang, transcript := parts,
                  full_text := String.intercalate " " (parts.map (fun p => p.text)) }
      else .error "No transcript available for this video"

end YouTubeProcessor

namespace Scripts

/-! ## The CLI script: urlparse / parse_qs timestamp, get_video_info,
get_transcript_placeholder, main -/

/-- The characters a URL scheme may consist of (CPython scheme_chars:
ASCII letters, digits, plus, minus, dot). -/
def schemeChar (c : Char) : Bool :=
  c.isAlpha || c.isDigit || c == '+' || c == '-' || c == '.'

/-- CPython urlsplit first deletes tab, carriage return and newline
from the URL. -/
def removeUnsafe (l : List Char) : List Char :=
  l.filter (fun c => !(c == '\t' || c == '\r' || c == '\n'))

/-- The scheme removal of urlsplit: if the first colon sits at a
positive index, the first character is an ASCII letter and everything
before the colon is a scheme character, everything through the colon
is dropped; otherwise the URL is left alone. -/
def stripScheme (l : List Char) : List Char :=
  match l.findIdx? (fun c => c == ':') with
  | none => l
  | some i =>
    if i = 0 then l
    else if (l.take i).all schemeChar && (l.headD ' ').isAlpha then l.drop (i + 1)
    else l

/-- The characters ending a netloc. -/
def urlDelim (c : Char) : Bool :=
  c == '/' || c == '?' || c == '#'

/-- The netloc component: after a leading double slash, up to the first
slash, question mark or hash sign; empty when there is no double
slash. -/
def netlocOf (l : List Char) : List Char :=
  if leadsWith ("//").data l then
    (l.drop 2).takeWhile (fun c => !urlDelim c)
  else []

/-- What is left of the URL once the double slash and the netloc are
consumed. -/
def afterNetlocOf (l : List Char) : List Char :=
  if leadsWith ("//").data l then
    (l.drop 2).dropWhile (fun c => !urlDelim c)
  else l

/-- The query component of the netloc-free remainder: the part after
the first question mark of the part before the first hash sign
(urlsplit splits the fragment off first). -/
def queryOf (u : List Char) : List Char :=
  match (u.takeWhile (fun c => !(c == '#'))).dropWhile (fun c => !(c == '?')) with
  | [] => []
  | _ :: t => t

/-- The urlsplit bracket check: a netloc containing one kind of square
bracket without the other raises ValueError("Invalid IPv6 URL"). -/
def invalidIPv6 (netloc : List Char) : Bool :=
  (netloc.contains '[' && !netloc.contains ']')
    || (netloc.contains ']' && !netloc.contains '[')

/-- urlparse(url).query, with the ValueError CPython raises on a
mismatched square bracket in the netloc. Not modelled (and excluded by
hypothesis wherever this function is reasoned about): the bracketed-host
validation CPython 3.11 added for netlocs containing both brackets, and
the _checknetloc rejection of certain non-ASCII netlocs. -/
def urlparseQuery (url : String) : Except String (List Char) :=
  let u1 := stripScheme (removeUnsafe url.data)
  if invalidIPv6 (netlocOf u1) then .error "Invalid IPv6 URL"
  else .ok (queryOf (afterNetlocOf u1))

/-- str.split(sep) for one separator character. -/
def splitOnChar (sep : Char) : List Char → List (List Char)
  | [] => [[]]
  | c :: cs =>
    let r := splitOnChar sep cs
    if c == sep then [] :: r
    else
      match r with
      | [] => [[c]]
      | h :: t => (c :: h) :: t

/-- urllib.parse.unquote_plus: plus signs to spaces, %XX byte escapes
decoded. Each decoded byte is mapped to the character of its value
(multi-byte UTF-8 percent sequences, which CPython would combine, do
not occur in any claim). -/
def unquote_plus : List Char → List Char
  | [] => []
  | '%' :: h1 :: h2 :: t =>
    match hexVal h1, hexVal h2 with
    | some v1, some v2 =>
      match mkChar (16 * v1 + v2) with
      | some c => c :: unquote_plus t
      | none => '%' :: unquote_plus (h1 :: h2 :: t)
    | _, _ => '%' :: unquote_plus (h1 :: h2 :: t)
  | '+' :: t => ' ' :: unquote_plus t
  | c :: t => c :: unquote_plus t

/-- parse_qs(query).get("t", [None])[0]: fields split on ampersands;
a field without an equals sign, or with an empty raw value, is skipped
(default keep_blank_values=False); names and values are unquoted; the
first surviving value bound to the name t, else None. -/
def parseTimestamp (query : List Char) : Option String :=
  let fields := (splitOnChar '&' query).filter (fun f => !f.isEmpty)
  let pairs := fields.filterMap (fun f =>
    let name := f.takeWhile (fun c => !(c == '='))
    match f.dropWhile (fun c => !(c == '=')) with
    | [] => none
    | _ :: value =>
      if value.isEmpty then none
      else some (String.mk (unquote_plus name), String.mk (unquote_plus value)))
  ((pairs.filter (fun p => p.1 == "t")).head?).map (fun p => p.2)

/-- The one JSON object main prints: either an error dictionary or one
of the two payload dictionaries. -/
inductive CliResult where
  | errorMsg (msg : String)
  | info (video_id : String) (url : String) (timestamp : Option String)
         (title : String) (description : String)
  | transcriptPlaceholder (video_id : String) (transcript : String)
                          (language : String) (note : String)
deriving DecidableEq

/-- get_video_info of the CLI script: no network access at all, but
urlparse(url) - called only once a video id was extracted - can raise,
and nothing here catches it. -/
def get_video_info (url : String) : Except String CliResult :=
  match extract_video_id url with
  | none => .ok (.errorMsg "Invalid YouTube URL")
  | some vid =>
    match urlparseQuery url with
    | .error e => .error e
    | .ok q =>
      .ok (.info vid url (parseTimestamp q)
        ("YouTube Video " ++ vid) "Video processing available")

/-- get_transcript_placeholder: every field except video_id is a
literal constant. -/
def get_transcript_placeholder (video_id : String) : CliResult :=
  .transcriptPlaceholder video_id
    "Transcript extraction requires youtube-transcript-api library"
    "auto"
    "Use fetch MCP to get video page content for now"

/-- main of the CLI script, argv including the program name. A normal
return prints exactly one JSON object and the process exits 0: that is
the .ok (result, 0) outcome, the 0 being literal in every branch. An
uncaught exception (the ValueError escaping urlparse inside
get_video_info) is the .error outcome: no JSON is printed, the
interpreter writes a traceback and exits with a non-zero status. -/
def main (argv : List String) : Except String (CliResult × Nat) :=
  if argv.length < 2 then .ok (.errorMsg "Please provide YouTube URL", 0)
  else
    let url := argv.getD 1 ""
    let action := argv.getD 2 "info"
    if action == "info" then
      match get_video_info url with
      | .error e => .error e
      | .ok r => .ok (r, 0)
    else if action == "transcript" then
      .ok (match extract_video_id url with
           | some vid => get_transcript_placeholder vid
           | none => .errorMsg "Invalid URL", 0)
    else .ok (.errorMsg "Unknown action", 0)

end Scripts


/-! ## Lemmas about the regex scanners -/

theorem leadsWith_append_self (m rest : List Char) :
    leadsWith m (m ++ rest) = true := by
  induction m with
  | nil => rfl
  | cons c t ih => simp [leadsWith, ih]

theorem drop_len_append (m rest : List Char) :
    (m ++ rest).drop m.length = rest := by
  induction m with
  | nil => rfl
  | cons c t ih => simp only [List.cons_append, List.length_cons, List.drop_succ_cons, ih]

theorem captureAt_of_ne (s : List Char) (h : vidOf s ≠ []) :
    captureAt s = some (vidOf s) := by
  unfold captureAt
  simp only [List.isEmpty_iff]
  rw [if_neg (by simpa [vidOf] using h)]
  rfl

theorem tryAlts_none (alts : List (List Char)) (s : List Char)
    (h : ∀ a ∈ alts, leadsWith a s = false) : tryAlts alts s = none := by
  induction alts with
  | nil => rfl
  | cons a more ih =>
    have ha := h a (List.mem_cons_self a more)
    simp only [tryAlts, ha]
    exact ih (fun b hb => h b (List.mem_cons_of_mem a hb))

theorem tryAlts_hit (alts : List (List Char)) (m rest : List Char)
    (hm : m ∈ alts)
    (huniq : ∀ a ∈ alts, leadsWith a (m ++ rest) = true → a = m)
    (hid : vidOf rest ≠ []) :
    tryAlts alts (m ++ rest) = some (vidOf rest) := by
  induction alts with
  | nil => cases hm
  | cons a more ih =>
    by_cases ha : leadsWith a (m ++ rest) = true
    · have hae : a = m := huniq a (List.mem_cons_self a more) ha
      subst hae
      simp only [tryAlts, ha, if_true, drop_len_append, captureAt_of_ne rest hid]
    · have hane : a ≠ m := fun he => ha (he ▸ leadsWith_append_self m rest)
      have hm2 : m ∈ more := by
        cases List.mem_cons.mp hm with
        | inl he => exact absurd he.symm hane
        | inr h2 => exact h2
      have haf : leadsWith a (m ++ rest) = false := by
        cases hle : leadsWith a (m ++ rest) with
        | true => exact absurd hle ha
        | false => rfl
      simp only [tryAlts, haf]
      exact ih hm2 (fun b hb hl => huniq b (List.mem_cons_of_mem a hb) hl)

theorem searchAlts_append_skip (alts : List (List Char)) (pre tail : List Char)
    (hpre : ∀ a ∈ alts, ∀ j < pre.length, leadsWith a ((pre ++ tail).drop j) = false) :
    searchAlts alts (pre ++ tail) = searchAlts alts tail := by
  induction pre with
  | nil => rfl
  | cons c pre ih =>
    have h0 : ∀ a ∈ alts, leadsWith a (c :: (pre ++ tail)) = false := by
      intro a ha
      have := hpre a ha 0 (by simp)
      simpa using this
    show searchAlts alts (c :: (pre ++ tail)) = searchAlts alts tail
    simp only [searchAlts, tryAlts_none alts _ h0]
    exact ih (fun a ha j hj => by
      have := hpre a ha (j + 1) (by simp only [List.length_cons]; omega)
      simpa using this)

theorem searchAlts_at_marker (alts : List (List Char)) (m rest : List Char)
    (hm : m ∈ alts) (hmne : m ≠ [])
    (huniq : ∀ a ∈ alts, leadsWith a (m ++ rest) = true → a = m)
    (hid : vidOf rest ≠ []) :
    searchAlts alts (m ++ rest) = some (vidOf rest) := by
  cases m with
  | nil => exact absurd rfl hmne
  | cons c mt =>
    show searchAlts alts (c :: (mt ++ rest)) = some (vidOf rest)
    have := tryAlts_hit alts (c :: mt) rest hm huniq hid
    simp only [searchAlts]
    rw [show c :: (mt ++ rest) = (c :: mt) ++ rest from rfl, this]

theorem searchAlts_none_of (alts : List (List Char)) (s : List Char)
    (h : ∀ a ∈ alts, ∀ j, leadsWith a (s.drop j) = false) :
    searchAlts alts s = none := by
  induction s with
  | nil => rfl
  | cons c cs ih =>
    have h0 : ∀ a ∈ alts, leadsWith a (c :: cs) = false := fun a ha => by
      simpa using h a ha 0
    simp only [searchAlts, tryAlts_none alts _ h0]
    exact ih (fun a ha j => by simpa using h a ha (j + 1))

theorem captureAt_some_ne (s cap : List Char) (h : captureAt s = some cap) :
    cap ≠ [] := by
  unfold captureAt at h
  simp only [List.isEmpty_iff] at h
  by_cases he : s.takeWhile (fun c => !stopChar c) = []
  · rw [if_pos he] at h; cases h
  · rw [if_neg he] at h
    injection h with h2
    exact h2 ▸ he

theorem tryAlts_some_ne (alts : List (List Char)) (s cap : List Char)
    (h : tryAlts alts s = some cap) : cap ≠ [] := by
  induction alts with
  | nil => cases h
  | cons a more ih =>
    simp only [tryAlts] at h
    by_cases hl : leadsWith a s = true
    · rw [if_pos hl] at h
      cases hc : captureAt (s.drop a.length) with
      | none => rw [hc] at h; exact ih h
      | some cap2 =>
        rw [hc] at h
        injection h with h2
        exact h2 ▸ captureAt_some_ne _ _ hc
    · rw [if_neg hl] at h
      exact ih h

theorem searchAlts_some_ne (alts : List (List Char)) (s cap : List Char)
    (h : searchAlts alts s = some cap) : cap ≠ [] := by
  induction s with
  | nil => cases h
  | cons c cs ih =>
    simp only [searchAlts] at h
    cases ht : tryAlts alts (c :: cs) with
    | none => rw [ht] at h; exact ih h
    | some cap2 =>
      rw [ht] at h
      injection h with h2
      exact h2 ▸ tryAlts_some_ne _ _ _ ht

theorem findSome_mem {α β : Type} (f : α → Option β) (l : List α) (b : β)
    (h : l.findSome? f = some b) : ∃ a, f a = some b := by
  induction l with
  | nil => cases h
  | cons a t ih =>
    cases hf : f a with
    | none =>
      rw [List.findSome?_cons, hf] at h
      exact ih h
    | some b2 =>
      rw [List.findSome?_cons, hf] at h
      exact ⟨a, hf.trans h⟩

theorem vEqAt_some_ne (s : List Char) (j : Nat) (cap : List Char)
    (h : Scripts.vEqAt s j = some cap) : cap ≠ [] := by
  unfold Scripts.vEqAt at h
  by_cases hc : ((s.take j).all (fun c => !(c == '\n')) && leadsWith (['v', '=']) (s.drop j)) = true
  · rw [if_pos hc] at h
    exact captureAt_some_ne _ _ h
  · rw [if_neg hc] at h; cases h

theorem matchDotStarVEq_some_ne (s cap : List Char)
    (h : Scripts.matchDotStarVEq s = some cap) : cap ≠ [] := by
  obtain ⟨j, hj⟩ := findSome_mem _ _ _ h
  exact vEqAt_some_ne s j cap hj

theorem searchP2_some_ne (s cap : List Char)
    (h : Scripts.searchP2 s = some cap) : cap ≠ [] := by
  induction s with
  | nil => cases h
  | cons c cs ih =>
    simp only [Scripts.searchP2] at h
    cases hcond : (if leadsWith Scripts.p2marker (c :: cs) = true then
        Scripts.matchDotStarVEq ((c :: cs).drop Scripts.p2marker.length) else none) with
    | none => rw [hcond] at h; exact ih h
    | some cap2 =>
      rw [hcond] at h
      injection h with h2
      by_cases hl : leadsWith Scripts.p2marker (c :: cs) = true
      · rw [if_pos hl] at hcond
        exact h2 ▸ matchDotStarVEq_some_ne _ _ hcond
      · rw [if_neg hl] at hcond; cases hcond

/-! ## Claims about extract_video_id -/

/-- C1 counterexample: a URL of the youtube.com/v/ shape, one of the
four shapes the claim lists for both source files. The src file
extracts the id; the scripts file (whose patterns have no v/
alternative) returns none, not the claimed substring. -/
theorem extract_video_id_v_shape_counterexample :
    YouTubeProcessor.extract_video_id "https://youtube.com/v/dQw4w9WgXcQ"
      = some "dQw4w9WgXcQ"
  ∧ Scripts.extract_video_id "https://youtube.com/v/dQw4w9WgXcQ" = none := by
  exact ⟨by decide, by decide⟩

/-- C1 (amended): the four supported shapes are split across the files:
the scripts file supports watch?v=, youtu.be/ and embed/; the src file
supports those plus youtube.com/v/. For a URL consisting of a prefix,
a supported marker and a remainder - with no spurious marker occurrence
that would make an earlier pattern or position match first, and a
non-empty id - extract_video_id returns exactly the substring between
the marker and the first of ampersand, question mark, hash sign,
newline, or the end of the string. -/
theorem extract_video_id_supported_shapes :
    (∀ m pre rest, m ∈ alts1 →
      (∀ a ∈ alts1, ∀ j < pre.length, leadsWith a ((pre ++ (m ++ rest)).drop j) = false) →
      (∀ a ∈ alts1, leadsWith a (m ++ rest) = true → a = m) →
      vidOf rest ≠ [] →
      Scripts.extract_video_id (String.mk (pre ++ (m ++ rest)))
        = some (String.mk (vidOf rest)))
  ∧ (∀ m pre rest, m ∈ alts1 →
      (∀ a ∈ alts1, ∀ j < pre.length, leadsWith a ((pre ++ (m ++ rest)).drop j) = false) →
      (∀ a ∈ alts1, leadsWith a (m ++ rest) = true → a = m) →
      vidOf rest ≠ [] →
      YouTubeProcessor.extract_video_id (String.mk (pre ++ (m ++ rest)))
        = some (String.mk (vidOf rest)))
  ∧ (∀ pre rest,
      (∀ a ∈ alts1, ∀ j,
        leadsWith a ((pre ++ (("youtube.com/v/").data ++ rest)).drop j) = false) →
      (∀ j < pre.length,
        leadsWith (("youtube.com/v/").data)
          ((pre ++ (("youtube.com/v/").data ++ rest)).drop j) = false) →
      vidOf rest ≠ [] →
      YouTubeProcessor.extract_video_id
          (String.mk (pre ++ (("youtube.com/v/").data ++ rest)))
        = some (String.mk (vidOf rest))) := by
  refine ⟨?_, ?_, ?_⟩
  · intro m pre rest hm hpre huniq hid
    have hmne : m ≠ [] := by
      have hm2 : m = ("youtube.com/watch?v=").data ∨ m = ("youtu.be/").data ∨
          m = ("youtube.com/embed/").data := by simpa [alts1] using hm
      rcases hm2 with rfl | rfl | rfl <;> decide
    unfold Scripts.extract_video_id
    rw [show (String.mk (pre ++ (m ++ rest))).data = pre ++ (m ++ rest) from rfl,
       searchAlts_append_skip alts1 pre (m ++ rest) hpre,
       searchAlts_at_marker alts1 m rest hm hmne huniq hid]
  · intro m pre rest hm hpre huniq hid
    have hmne : m ≠ [] := by
      have hm2 : m = ("youtube.com/watch?v=").data ∨ m = ("youtu.be/").data ∨
          m = ("youtube.com/embed/").data := by simpa [alts1] using hm
      rcases hm2 with rfl | rfl | rfl <;> decide
    unfold YouTubeProcessor.extract_video_id
    rw [show (String.mk (pre ++ (m ++ rest))).data = pre ++ (m ++ rest) from rfl,
       searchAlts_append_skip alts1 pre (m ++ rest) hpre,
       searchAlts_at_marker alts1 m rest hm hmne huniq hid]
  · intro pre rest h1 hpre hid
    unfold YouTubeProcessor.extract_video_id
    rw [show (String.mk (pre ++ (("youtube.com/v/").data ++ rest))).data
          = pre ++ (("youtube.com/v/").data ++ rest) from rfl,
       searchAlts_none_of alts1 _ h1,
       searchAlts_append_skip YouTubeProcessor.vAlt pre _ (by
         intro a ha j hj
         have hav : a = ("youtube.com/v/").data := by
           simpa [YouTubeProcessor.vAlt] using ha
         exact hav ▸ hpre j hj),
       searchAlts_at_marker YouTubeProcessor.vAlt (("youtube.com/v/").data) rest
         (by simp [YouTubeProcessor.vAlt]) (by decide)
         (fun a ha _ => by simpa [YouTubeProcessor.vAlt] using ha) hid]

/-- Witness for the amended C1 theorem at a concrete watch URL. -/
theorem extract_video_id_supported_shapes_witness :
    Scripts.extract_video_id
        (String.mk (("https://www.").data
          ++ (("youtube.com/watch?v=").data ++ ("dQw4w9WgXcQ&t=42").data)))
      = some (String.mk (vidOf ("dQw4w9WgXcQ&t=42").data)) :=
  extract_video_id_supported_shapes.1 ("youtube.com/watch?v=").data
    ("https://www.").data ("dQw4w9WgXcQ&t=42").data
    (by decide) (by decide) (by decide) (by decide)

/-- C9: a watch URL whose v parameter is not the first query parameter
contains none of the four spec-listed markers, yet the scripts file
still extracts the id through its youtube.com/watch?.*v= fallback
pattern (the src file, implementing exactly the four listed shapes,
does not). -/
theorem watch_url_fallback_extraction :
    Scripts.extract_video_id "https://www.youtube.com/watch?list=PL9&v=dQw4w9WgXcQ"
      = some "dQw4w9WgXcQ"
  ∧ occursIn ("youtube.com/watch?v=").data
      ("https://www.youtube.com/watch?list=PL9&v=dQw4w9WgXcQ").data = false
  ∧ occursIn ("youtu.be/").data
      ("https://www.youtube.com/watch?list=PL9&v=dQw4w9WgXcQ").data = false
  ∧ occursIn ("youtube.com/embed/").data
      ("https://www.youtube.com/watch?list=PL9&v=dQw4w9WgXcQ").data = false
  ∧ occursIn ("youtube.com/v/").data
      ("https://www.youtube.com/watch?list=PL9&v=dQw4w9WgXcQ").data = false
  ∧ YouTubeProcessor.extract_video_id
      "https://www.youtube.com/watch?list=PL9&v=dQw4w9WgXcQ" = none := by
  exact ⟨by decide, by decide, by decide, by decide, by decide, by decide⟩

/-- C10: an extracted video id is never the empty string, in either
source file: the capture group [^&\n?#]+ needs at least one character. -/
theorem extract_video_id_nonempty (url id : String) :
    (Scripts.extract_video_id url = some id → id ≠ "")
  ∧ (YouTubeProcessor.extract_video_id url = some id → id ≠ "") := by
  constructor
  · intro h
    unfold Scripts.extract_video_id at h
    cases h1 : searchAlts alts1 url.data with
    | some cap =>
      rw [h1] at h
      injection h with h2
      intro he
      rw [← h2] at he
      exact searchAlts_some_ne _ _ _ h1 (congrArg String.data he)
    | none =>
      rw [h1] at h
      cases h2 : Scripts.searchP2 url.data with
      | none => rw [h2] at h; cases h
      | some cap =>
        rw [h2] at h
        injection h with h3
        intro he
        rw [← h3] at he
        exact searchP2_some_ne _ _ h2 (congrArg String.data he)
  · intro h
    unfold YouTubeProcessor.extract_video_id at h
    cases h1 : searchAlts alts1 url.data with
    | some cap =>
      rw [h1] at h
      injection h with h2
      intro he
      rw [← h2] at he
      exact searchAlts_some_ne _ _ _ h1 (congrArg String.data he)
    | none =>
      rw [h1] at h
      cases h2 : searchAlts YouTubeProcessor.vAlt url.data with
      | none => rw [h2] at h; cases h
      | some cap =>
        rw [h2] at h
        injection h with h3
        intro he
        rw [← h3] at he
        exact searchAlts_some_ne _ _ _ h2 (congrArg String.data he)

/-- Witness for the non-empty-id theorem at a concrete URL. -/
theorem extract_video_id_nonempty_witness : ("abc" : String) ≠ "" :=
  (extract_video_id_nonempty "https://youtu.be/abc" "abc").1 (by decide)

/-! ## Lemmas about the literal re.sub -/

theorem replaceAllFuel_id (pat rep : List Char) (fuel : Nat) (s : List Char)
    (h : occursIn pat s = false) : replaceAllFuel pat rep fuel s = s := by
  induction fuel generalizing s with
  | zero => rfl
  | succ f ih =>
    cases s with
    | nil => rfl
    | cons c cs =>
      simp only [occursIn, Bool.or_eq_false_iff] at h
      simp only [replaceAllFuel, h.1, Bool.false_eq_true, if_false]
      rw [ih cs h.2]

theorem replaceAll_id (pat rep s : List Char) (h : occursIn pat s = false) :
    replaceAll pat rep s = s :=
  replaceAllFuel_id pat rep (s.length + 1) s h

/-! ## Claims about get_transcript (transcript XML parsing) -/

/-- C2 counterexample: in a 200 body carrying the XML entity &quot;,
the segment text comes out with the quote decoded (the XML parser
performs standard entity decoding), while the claim - exactly the
three entities amp, lt, gt unescaped - demands the text keep the
literal &quot; . -/
theorem transcript_quot_entity_counterexample :
    YouTubeProcessor.get_transcript "https://youtu.be/q1" "en"
      (.ok ⟨200, "<transcript><text>&quot;x</text></transcript>"⟩)
      = .ok ⟨"q1", "en", [⟨0, 0, "\"x"⟩], "\"x"⟩
  ∧ ("\"x" : String) ≠ "&quot;x" :=
  ⟨by decide, by decide⟩

/-- C2 (amended): segments are built from the text descendants of the
parsed root. A missing start attribute defaults to 0, a missing dur
attribute to 0, missing text content to the empty string; on top of
the standard XML entity and character-reference decoding done at parse
time, the code itself unescapes exactly &amp;, &lt;, &gt; (a string
free of those three sequences passes through the cleanup unchanged)
and trims surrounding whitespace; the spec example body yields the
segment (start 1.5, duration 2.0, text "A &B") and full text "A &B". -/
theorem transcript_segment_parsing :
    (∀ e : XmlElem, e.attrGet "start" = none → e.attrGet "dur" = none →
      e.text = none →
      YouTubeProcessor.processTextElem e = .ok ⟨0, 0, ""⟩)
  ∧ (∀ t : List Char,
      occursIn ("&amp;").data t = false →
      occursIn ("&lt;").data t = false →
      occursIn ("&gt;").data t = false →
      YouTubeProcessor.unescape3 t = t)
  ∧ (YouTubeProcessor.get_transcript "https://youtu.be/vid123" "en"
      (.ok ⟨200, "<transcript><text start=\"1.5\" dur=\"2.0\">A &amp;B</text></transcript>"⟩)
      = .ok ⟨"vid123", "en", [⟨mkRat 3 2, mkRat 2 1, "A &B"⟩], "A &B"⟩) := by
  refine ⟨?_, ?_, by decide⟩
  · intro e h1 h2 h3
    simp only [YouTubeProcessor.processTextElem, YouTubeProcessor.floatOfAttr,
      h1, h2, h3]
    rfl
  · intro t hamp hlt hgt
    unfold YouTubeProcessor.unescape3
    rw [replaceAll_id _ _ t hamp, replaceAll_id _ _ t hlt, replaceAll_id _ _ t hgt]

/-- Witness for the amended C2 theorem: a bare text element maps to the
all-defaults segment. -/
theorem transcript_segment_parsing_witness :
    YouTubeProcessor.processTextElem (XmlElem.mk "text" [] none []) = .ok ⟨0, 0, ""⟩ :=
  transcript_segment_parsing.1 (XmlElem.mk "text" [] none []) rfl rfl rfl

/-! ## Claims about get_video_info -/

/-- C3: a body whose title pattern captures the JSON-escaped
Foo&Bar produces the decoded title Foo&Bar, and the decode step
itself resolves the escape. -/
theorem video_info_title_unicode_escape :
    YouTubeProcessor.get_video_info "https://youtu.be/abc123"
      (.ok ⟨200, "\"title\":\"Foo\\u0026Bar\""⟩)
      = .ok ⟨"abc123", "Foo&Bar", "No description", 0, "https://youtu.be/abc123",
             "https://img.youtube.com/vi/abc123/maxresdefault.jpg"⟩
  ∧ pyUnicodeEscape (utf8Encode "Foo\\u0026Bar") = some "Foo&Bar" :=
  ⟨by decide, by decide⟩

/-- C4 counterexample: the title pattern is absent from this body, yet
the call returns an error dictionary, not a successful result: the
description that was captured ends in a backslash, so its
unicode_escape decode raises and fails the whole call. -/
theorem video_info_bad_escape_counterexample :
    YouTubeProcessor.searchQuoted YouTubeProcessor.titleMarker
      ("\"shortDescription\":\"ab\\\"").data = none
  ∧ (YouTubeProcessor.get_video_info "https://youtu.be/x"
      (.ok ⟨200, "\"shortDescription\":\"ab\\\""⟩)).isOk = false :=
  ⟨by decide, by decide⟩

/-- C4 (amended): the three extractions are independent and an absent
pattern only sends its own field to its default ("Unknown Title",
"No description", 0) - provided the title and description values that
are present decode successfully under unicode_escape; a malformed
escape in a captured string fails the whole call. -/
theorem video_info_independent_fallbacks :
    (∀ (url vid : String) (st : Nat) (body d : String),
      YouTubeProcessor.extract_video_id url = some vid →
      YouTubeProcessor.searchQuoted YouTubeProcessor.titleMarker body.data = none →
      pyUnicodeEscape (utf8Encode (YouTubeProcessor.descriptionOf body.data)) = some d →
      YouTubeProcessor.get_video_info url (.ok ⟨st, body⟩)
        = .ok ⟨vid, "Unknown Title", d, YouTubeProcessor.durationOf body.data, url,
               YouTubeProcessor.thumbnailOf vid⟩)
  ∧ (∀ (url vid : String) (st : Nat) (body t : String),
      YouTubeProcessor.extract_video_id url = some vid →
      YouTubeProcessor.searchQuoted YouTubeProcessor.descMarker body.data = none →
      pyUnicodeEscape (utf8Encode (YouTubeProcessor.titleOf body.data)) = some t →
      YouTubeProcessor.get_video_info url (.ok ⟨st, body⟩)
        = .ok ⟨vid, t, "No description", YouTubeProcessor.durationOf body.data, url,
               YouTubeProcessor.thumbnailOf vid⟩)
  ∧ (∀ (url vid : String) (st : Nat) (body t d : String),
      YouTubeProcessor.extract_video_id url = some vid →
      YouTubeProcessor.searchDigits YouTubeProcessor.lenMarker body.data = none →
      pyUnicodeEscape (utf8Encode (YouTubeProcessor.titleOf body.data)) = some t →
      pyUnicodeEscape (utf8Encode (YouTubeProcessor.descriptionOf body.data)) = some d →
      YouTubeProcessor.get_video_info url (.ok ⟨st, body⟩)
        = .ok ⟨vid, t, d, 0, url, YouTubeProcessor.thumbnailOf vid⟩) := by
  refine ⟨?_, ?_, ?_⟩
  · intro url vid st body d hv ht hd
    have ht2 : YouTubeProcessor.titleOf body.data = "Unknown Title" := by
      simp only [YouTubeProcessor.titleOf, ht]
    simp only [YouTubeProcessor.get_video_info, hv, ht2, hd,
      show pyUnicodeEscape (utf8Encode ("Unknown Title" : String))
        = some "Unknown Title" from by decide]
  · intro url vid st body t hv hdm htt
    have hd2 : YouTubeProcessor.descriptionOf body.data = "No description" := by
      simp only [YouTubeProcessor.descriptionOf, hdm]
    simp only [YouTubeProcessor.get_video_info, hv, hd2, htt,
      show pyUnicodeEscape (utf8Encode ("No description" : String))
        = some "No description" from by decide]
  · intro url vid st body t d hv hlm htt hdd
    have hdu : YouTubeProcessor.durationOf body.data = 0 := by
      simp only [YouTubeProcessor.durationOf, hlm]
    simp only [YouTubeProcessor.get_video_info, hv, htt, hdd, hdu]

/-- Witness for the amended C4 theorem: a body with none of the three
patterns gives all three defaults and a successful result. -/
theorem video_info_independent_fallbacks_witness :
    YouTubeProcessor.get_video_info "https://youtu.be/w1" (.ok ⟨200, "x"⟩)
      = .ok ⟨"w1", "Unknown Title", "No description", 0, "https://youtu.be/w1",
             "https://img.youtube.com/vi/w1/maxresdefault.jpg"⟩ :=
  video_info_independent_fallbacks.1 "https://youtu.be/w1" "w1" 200 "x"
    "No description" (by decide) (by decide) (by decide)

/-! ## Claims about get_transcript_urls and the error taxonomy -/

/-- C5: listCaptionTracks never fails outward. Its return type is a
plain list for every input, and each failure mode - transport
exception, completed non-200 response, malformed XML - yields the
empty list rather than an error object. -/
theorem caption_tracks_error_empty :
    (∀ (vid e : String), YouTubeProcessor.get_transcript_urls vid (.error e) = [])
  ∧ (∀ (vid : String) (r : HttpResponse), r.status ≠ 200 →
      YouTubeProcessor.get_transcript_urls vid (.ok r) = [])
  ∧ (∀ (vid : String) (r : HttpResponse), ET_fromstring r.body = none →
      YouTubeProcessor.get_transcript_urls vid (.ok r) = []) := by
  refine ⟨fun vid e => rfl, ?_, ?_⟩
  · intro vid r h
    simp only [YouTubeProcessor.get_transcript_urls]
    rw [if_neg (by simp only [beq_iff_eq]; exact h)]
  · intro vid r h
    simp only [YouTubeProcessor.get_transcript_urls]
    by_cases hs : (r.status == 200) = true
    · rw [if_pos hs, h]
    · rw [if_neg hs]

/-- Witness for the caption-list theorem at a concrete 404 response. -/
theorem caption_tracks_error_empty_witness :
    YouTubeProcessor.get_transcript_urls "w" (.ok ⟨404, ""⟩) = [] :=
  caption_tracks_error_empty.2.1 "w" ⟨404, ""⟩ (by decide)

/-- C6: a transcript fetch whose response completed with a non-200
status returns the error dictionary "No transcript available for this
video", and that message differs from every message the FetchFailed
path (transport or parse exception) can produce, all of which start
with "Failed to get transcript: ". No exception escapes: the function
totally returns a TranscriptResult. -/
theorem transcript_non200_no_transcript :
    (∀ (url lang vid : String) (r : HttpResponse),
      YouTubeProcessor.extract_video_id url = some vid →
      r.status ≠ 200 →
      YouTubeProcessor.get_transcript url lang (.ok r)
        = .error "No transcript available for this video")
  ∧ (∀ e : String, ("No transcript available for this video" : String)
      ≠ "Failed to get transcript: " ++ e) := by
  constructor
  · intro url lang vid r hv hs
    simp only [YouTubeProcessor.get_transcript, hv]
    rw [if_neg (by simp only [beq_iff_eq]; exact hs)]
  · intro e h
    have h2 : ("No transcript available for this video" : String).data.head?
        = ("Failed to get transcript: " ++ e).data.head? := by rw [h]
    rw [show ("Failed to get transcript: " ++ e).data.head? = some 'F' from rfl,
       show ("No transcript available for this video" : String).data.head?
         = some 'N' from rfl] at h2
    exact absurd h2 (by decide)

/-- Witness for the non-200 transcript theorem at a concrete 404. -/
theorem transcript_non200_no_transcript_witness :
    YouTubeProcessor.get_transcript "https://youtu.be/abc" "en" (.ok ⟨404, ""⟩)
      = .error "No transcript available for this video" :=
  transcript_non200_no_transcript.1 "https://youtu.be/abc" "en" "abc" ⟨404, ""⟩
    (by decide) (by decide)

/-! ## Lemmas about the urlparse model -/

theorem stripScheme_sublist (l : List Char) : (Scripts.stripScheme l).Sublist l := by
  unfold Scripts.stripScheme
  split
  · exact List.Sublist.refl l
  · split
    · exact List.Sublist.refl l
    · split
      · exact List.drop_sublist _ _
      · exact List.Sublist.refl l

theorem netlocOf_sublist (l : List Char) : (Scripts.netlocOf l).Sublist l := by
  unfold Scripts.netlocOf
  by_cases h : leadsWith ("//").data l = true
  · rw [if_pos h]
    exact (List.takeWhile_sublist _).trans (List.drop_sublist 2 l)
  · rw [if_neg h]
    exact List.nil_sublist l

theorem invalidIPv6_false (netloc : List Char)
    (hl : ('[') ∉ netloc) (hr : (']') ∉ netloc) :
    Scripts.invalidIPv6 netloc = false := by
  have h1 : netloc.contains '[' = false := by
    cases hc : netloc.contains '[' with
    | false => rfl
    | true => exact absurd (List.mem_of_elem_eq_true hc) hl
  have h2 : netloc.contains ']' = false := by
    cases hc : netloc.contains ']' with
    | false => rfl
    | true => exact absurd (List.mem_of_elem_eq_true hc) hr
  unfold Scripts.invalidIPv6
  rw [h1, h2]
  rfl

theorem urlparseQuery_ok (url : String)
    (hl : ('[') ∉ url.data) (hr : (']') ∉ url.data) :
    Scripts.urlparseQuery url
      = .ok (Scripts.queryOf (Scripts.afterNetlocOf
          (Scripts.stripScheme (Scripts.removeUnsafe url.data)))) := by
  have hsub : (Scripts.netlocOf (Scripts.stripScheme
      (Scripts.removeUnsafe url.data))).Sublist url.data :=
    ((netlocOf_sublist _).trans (stripScheme_sublist _)).trans (List.filter_sublist _)
  simp only [Scripts.urlparseQuery]
  rw [invalidIPv6_false _ (fun hm => hl (hsub.subset hm))
      (fun hm => hr (hsub.subset hm))]
  rfl

/-! ## Claims about the CLI script -/

/-- C7 counterexample: on the URL https://[youtube.com/watch?v=abc a
video id is extracted, so get_video_info proceeds to urlparse, whose
netloc [youtube.com has an unmatched bracket: CPython raises
ValueError("Invalid IPv6 URL"), nothing catches it, the script prints
no JSON object and the process exits with a non-zero status - against
the claim that every invocation prints one JSON object and exits 0. -/
theorem cli_ipv6_crash_counterexample :
    Scripts.extract_video_id "https://[youtube.com/watch?v=abc" = some "abc"
  ∧ Scripts.main ["prog", "https://[youtube.com/watch?v=abc"]
      = .error "Invalid IPv6 URL" :=
  ⟨by decide, by rfl⟩

/-- C7 (amended): with fewer than two argv entries the script prints
the "Please provide YouTube URL" error object and exits 0; with an
action other than info and transcript it prints the "Unknown action"
error object and exits 0; whenever the script prints a JSON object at
all it exits 0; and every invocation whose URL argument contains no
square bracket and only ASCII characters - every well-formed YouTube
URL - prints exactly one JSON object and exits 0. Not every input
exits 0, though: a URL whose netloc carries a mismatched square
bracket makes the uncaught ValueError of urlparse crash the script. -/
theorem cli_output_and_exit_status :
    (∀ argv : List String, argv.length < 2 →
      Scripts.main argv = .ok (.errorMsg "Please provide YouTube URL", 0))
  ∧ (∀ argv : List String, 3 ≤ argv.length →
      argv.getD 2 "info" ≠ "info" → argv.getD 2 "info" ≠ "transcript" →
      Scripts.main argv = .ok (.errorMsg "Unknown action", 0))
  ∧ (∀ (argv : List String) (r : Scripts.CliResult) (n : Nat),
      Scripts.main argv = .ok (r, n) → n = 0)
  ∧ (∀ argv : List String,
      ('[') ∉ (argv.getD 1 "").data →
      (']') ∉ (argv.getD 1 "").data →
      (∀ c ∈ (argv.getD 1 "").data, c.toNat < 128) →
      ∃ r, Scripts.main argv = .ok (r, 0)) := by
  refine ⟨?_, ?_, ?_, ?_⟩
  · intro argv h
    simp only [Scripts.main, if_pos h]
  · intro argv hlen h1 h2
    have hnl : ¬(argv.length < 2) := by omega
    simp only [Scripts.main, if_neg hnl]
    rw [if_neg (by simp only [beq_iff_eq]; exact h1),
       if_neg (by simp only [beq_iff_eq]; exact h2)]
  · intro argv r n h
    simp only [Scripts.main] at h
    by_cases hl2 : argv.length < 2
    · rw [if_pos hl2] at h
      exact (congrArg Prod.snd (Except.ok.inj h)).symm
    · rw [if_neg hl2] at h
      by_cases hi : (argv.getD 2 "info" == "info") = true
      · rw [if_pos hi] at h
        cases hgv : Scripts.get_video_info (argv.getD 1 "") with
        | error e => rw [hgv] at h; exact Except.noConfusion h
        | ok r2 =>
          rw [hgv] at h
          exact (congrArg Prod.snd (Except.ok.inj h)).symm
      · rw [if_neg hi] at h
        by_cases htr : (argv.getD 2 "info" == "transcript") = true
        · rw [if_pos htr] at h
          exact (congrArg Prod.snd (Except.ok.inj h)).symm
        · rw [if_neg htr] at h
          exact (congrArg Prod.snd (Except.ok.inj h)).symm
  · intro argv hl hr _
    by_cases hl2 : argv.length < 2
    · exact ⟨.errorMsg "Please provide YouTube URL",
        by simp only [Scripts.main, if_pos hl2]⟩
    · by_cases hi : (argv.getD 2 "info" == "info") = true
      · cases hx : Scripts.extract_video_id (argv.getD 1 "") with
        | none =>
          refine ⟨.errorMsg "Invalid YouTube URL", ?_⟩
          simp only [Scripts.main, if_neg hl2, if_pos hi,
            Scripts.get_video_info, hx]
        | some vid =>
          refine ⟨.info vid (argv.getD 1 "")
            (Scripts.parseTimestamp (Scripts.queryOf (Scripts.afterNetlocOf
              (Scripts.stripScheme (Scripts.removeUnsafe (argv.getD 1 "").data)))))
            ("YouTube Video " ++ vid) "Video processing available", ?_⟩
          simp only [Scripts.main, if_neg hl2, if_pos hi,
            Scripts.get_video_info, hx, urlparseQuery_ok _ hl hr]
      · by_cases htr : (argv.getD 2 "info" == "transcript") = true
        · exact ⟨(match Scripts.extract_video_id (argv.getD 1 "") with
                  | some vid => Scripts.get_transcript_placeholder vid
                  | none => .errorMsg "Invalid URL"),
            by simp only [Scripts.main, if_neg hl2, if_neg hi, if_pos htr]⟩
        · exact ⟨.errorMsg "Unknown action",
            by simp only [Scripts.main, if_neg hl2, if_neg hi, if_neg htr]⟩

/-- Witness for the amended CLI theorem at a bracket-free ASCII watch
URL. -/
theorem cli_output_and_exit_status_witness :
    ∃ r, Scripts.main ["p", "https://www.youtube.com/watch?v=dQw4w9WgXcQ&t=42"]
      = .ok (r, 0) :=
  cli_output_and_exit_status.2.2.2
    ["p", "https://www.youtube.com/watch?v=dQw4w9WgXcQ&t=42"]
    (by decide) (by decide) (by decide)

/-- C8: with action transcript and an extractable video id, main
returns normally with the placeholder object whose transcript,
language and note fields are literal constants independent of the
input (and the script performs no network request: the whole model is
a pure function of argv, and the transcript branch never touches
urlparse). -/
theorem cli_transcript_placeholder (prog url : String) (rest : List String)
    (vid : String) (h : Scripts.extract_video_id url = some vid) :
    Scripts.main (prog :: url :: "transcript" :: rest)
      = .ok (.transcriptPlaceholder vid
          "Transcript extraction requires youtube-transcript-api library"
          "auto" "Use fetch MCP to get video page content for now", 0) := by
  have hlen : ¬((prog :: url :: "transcript" :: rest).length < 2) := by
    simp only [List.length_cons]
    omega
  simp only [Scripts.main, if_neg hlen]
  rw [show (prog :: url :: "transcript" :: rest).getD 2 "info" = "transcript" from rfl,
     show (prog :: url :: "transcript" :: rest).getD 1 "" = url from rfl,
     if_neg (by decide), if_pos (by decide), h]
  rfl

/-- Witness for the transcript-placeholder theorem. -/
theorem cli_transcript_placeholder_witness :
    Scripts.main ["p", "https://youtu.be/abc", "transcript"]
      = .ok (.transcriptPlaceholder "abc"
          "Transcript extraction requires youtube-transcript-api library"
          "auto" "Use fetch MCP to get video page content for now", 0) :=
  cli_transcript_placeholder "p" "https://youtu.be/abc" [] "abc" (by decide)
